import Mathlib

/-!
Shallow embedding of the campus lost-and-found board (TypeScript/React frontend).

Conventions used throughout:
* TypeScript strings are Lean `String`s; `String.prototype.includes`,
  `String.prototype.trim` and `String.prototype.toLowerCase` are embedded as
  executable functions over the character list of the string.
* `new Date(s)` comparisons (`<=`, `>=`, subtraction of `getTime()` values)
  are embedded as lexicographic comparison of the underlying strings, which
  coincides with chronological order on the ISO-8601 date and timestamp
  strings the application stores (`YYYY-MM-DD`, `YYYY-MM-DDTHH:mm:ss.sssZ`).
* `Array.prototype.sort` (stable in JavaScript) is embedded as Mathlib's
  `List.insertionSort`, which is a stable sort for the same comparator.
* JavaScript plain objects used as string-keyed counters preserve insertion
  order of their (non-integer-like) keys, so `Object.entries` over such a
  counter is embedded as an association list in first-insertion order.
-/

namespace LostFound

/-- Characters removed by JavaScript `String.prototype.trim` (the ASCII
whitespace actually occurring in this application's inputs). -/
def jsWhitespace (c : Char) : Bool :=
  c == ' ' || c == '\t' || c == '\n' || c == '\r'

/-- Embedding of `s.trim()`: drop whitespace from both ends. -/
def jsTrim (s : String) : String :=
  ⟨((s.data.dropWhile jsWhitespace).reverse.dropWhile jsWhitespace).reverse⟩

/-- Embedding of `s.toLowerCase()`. -/
def jsToLower (s : String) : String :=
  ⟨s.data.map Char.toLower⟩

/-- Embedding of `hay.includes(needle)`: substring containment. -/
def jsIncludes (hay needle : String) : Bool :=
  decide (needle.data <:+: hay.data)

/-- Embedding of `new Date(a) <= new Date(b)` on the ISO-8601 strings stored
by the application, where lexicographic order coincides with time order. -/
def jsDateLe (a b : String) : Bool :=
  decide (a ≤ b)

/-- The `Item` record of `src/types/index.ts` (and the identical `ApiItem`). -/
structure Item where
  id : String
  title : String
  description : String
  category : String
  location : String
  date : String
  status : String
  type : String
  image : Option String
  contactName : String
  contactInfo : String
  createdAt : String
deriving DecidableEq, Repr

/-- The `FilterOptions` record of `src/types/index.ts`. -/
structure FilterOptions where
  search : String
  category : String
  location : String
  type : String
  status : String
  dateFrom : String
  dateTo : String
deriving DecidableEq, Repr

/-- The filter predicate of `filteredItems` in `ItemList.tsx` (lines 28-55),
translated clause for clause. -/
def matchesFilters (f : FilterOptions) (it : Item) : Bool :=
  let searchLower := jsToLower f.search
  let matchesSearch :=
    jsIncludes (jsToLower it.title) searchLower ||
    jsIncludes (jsToLower it.description) searchLower ||
    jsIncludes (jsToLower it.location) searchLower ||
    jsIncludes (jsToLower it.contactName) searchLower
  let matchesCategory := f.category == "All" || it.category == f.category
  let matchesLocation := f.location == "All" || it.location == f.location
  let matchesType := f.type == "all" || it.type == f.type
  let matchesStatus := f.status == "all" || it.status == f.status
  let matchesDateFrom := f.dateFrom == "" || jsDateLe f.dateFrom it.date
  let matchesDateTo := f.dateTo == "" || jsDateLe it.date f.dateTo
  matchesSearch && matchesCategory && matchesLocation && matchesType &&
    matchesStatus && matchesDateFrom && matchesDateTo

/-- `filteredItems` of `ItemList.tsx`. -/
def filteredItems (f : FilterOptions) (items : List Item) : List Item :=
  items.filter (matchesFilters f)

/-- Ordering used by `sortedItems` in `ItemList.tsx`: the comparator
`(a, b) => new Date(b.createdAt).getTime() - new Date(a.createdAt).getTime()`
places `a` before `b` exactly when `b.createdAt <= a.createdAt`. -/
def newerFirst (a b : Item) : Prop :=
  b.createdAt ≤ a.createdAt

instance : DecidableRel newerFirst := fun a b =>
  inferInstanceAs (Decidable (b.createdAt ≤ a.createdAt))

instance : IsTotal Item newerFirst :=
  ⟨fun a b => le_total b.createdAt a.createdAt⟩

instance : IsTrans Item newerFirst :=
  ⟨fun _ _ _ hab hbc => le_trans hbc hab⟩

/-- `sortedItems` of `ItemList.tsx` (lines 57-60): a stable sort of the
filtered items, newest first by `createdAt`. -/
def sortedItems (f : FilterOptions) (items : List Item) : List Item :=
  (filteredItems f items).insertionSort newerFirst

/-- Stated from claim C1's words, for comparison with `matchesFilters`: the
claim reads the sentinels `"All"`/`"all"` and the empty value as imposing no
constraint on each of the four equality filters. -/
def claimMatchesFilters (f : FilterOptions) (it : Item) : Bool :=
  let q := jsToLower f.search
  (jsIncludes (jsToLower it.title) q ||
   jsIncludes (jsToLower it.description) q ||
   jsIncludes (jsToLower it.location) q ||
   jsIncludes (jsToLower it.contactName) q) &&
  (f.category == "All" || f.category == "all" || f.category == "" ||
    it.category == f.category) &&
  (f.location == "All" || f.location == "all" || f.location == "" ||
    it.location == f.location) &&
  (f.type == "All" || f.type == "all" || f.type == "" || it.type == f.type) &&
  (f.status == "All" || f.status == "all" || f.status == "" ||
    it.status == f.status) &&
  (f.dateFrom == "" || jsDateLe f.dateFrom it.date) &&
  (f.dateTo == "" || jsDateLe it.date f.dateTo)

/-- `ApiService.getSearchSuggestions` of `services/api.ts`: queries shorter
than two characters short-circuit to the empty list before any request is
made; otherwise the backend's answer is returned.  The backend call is
abstracted as a function argument. -/
def getSearchSuggestions (query : String) (backendSuggest : String → List String) :
    List String :=
  if query.length < 2 then [] else backendSuggest query

/-! Dashboard fallback aggregation, `Dashboard.calculateLocalData` in
`components/Dashboard.tsx` (lines 60-103). -/

/-- `const totalItems = items.length`. -/
def totalItems (items : List Item) : Nat := items.length

/-- `items.filter(item => item.type === 'lost').length`. -/
def lostItems (items : List Item) : Nat :=
  (items.filter (fun it => it.type == "lost")).length

/-- `items.filter(item => item.type === 'found').length`. -/
def foundItems (items : List Item) : Nat :=
  (items.filter (fun it => it.type == "found")).length

/-- `items.filter(item => item.status === 'active').length`. -/
def activeItems (items : List Item) : Nat :=
  (items.filter (fun it => it.status == "active")).length

/-- `items.filter(item => item.status === 'claimed').length`. -/
def claimedItems (items : List Item) : Nat :=
  (items.filter (fun it => it.status == "claimed")).length

/-- `items.filter(item => item.status === 'pending').length`. -/
def pendingItems (items : List Item) : Nat :=
  (items.filter (fun it => it.status == "pending")).length

/-- `claimRate = totalItems > 0 ? ((claimedItems / totalItems) * 100).toFixed(1) : 0`,
as an exact rational; the one-decimal rounding of `toFixed(1)`/`parseFloat`
is not modelled (it does not affect the guarded zero case). -/
def claimRate (items : List Item) : ℚ :=
  if 0 < totalItems items then
    ((claimedItems items : ℚ) / (totalItems items : ℚ)) * 100
  else 0

/-- One step of `count[key] = (count[key] || 0) + 1` on a string-keyed
counter object: increment the existing entry, or append a new key at the
end (JavaScript objects keep non-integer-like string keys in insertion
order, so `Object.entries` later lists them in first-encounter order). -/
def bumpCount : List (String × Nat) → String → List (String × Nat)
  | [], key => [(key, 1)]
  | (k, v) :: rest, key =>
    if k == key then (k, v + 1) :: rest else (k, v) :: bumpCount rest key

/-- The counter object built by `items.forEach(...)` over one string field,
read off with `Object.entries`. -/
def countRecord (keys : List String) : List (String × Nat) :=
  keys.foldl bumpCount []

/-- Ordering of `.sort((a, b) => b[1] - a[1])`: `a` may come before `b`
exactly when `a`'s count is at least `b`'s count. -/
def countGe (a b : String × Nat) : Prop :=
  b.2 ≤ a.2

instance : DecidableRel countGe := fun a b =>
  inferInstanceAs (Decidable (b.2 ≤ a.2))

instance : IsTotal (String × Nat) countGe :=
  ⟨fun a b => le_total b.2 a.2⟩

instance : IsTrans (String × Nat) countGe :=
  ⟨fun _ _ _ hab hbc => le_trans hbc hab⟩

/-- `topCategories` of `calculateLocalData`: entries of the category counter,
stably sorted by descending count, truncated to the first ten.  The final
`.map(([name, count]) => ({ name, count }))` is the identity on pairs. -/
def topCategories (items : List Item) : List (String × Nat) :=
  ((countRecord (items.map Item.category)).insertionSort countGe).take 10

/-- `topLocations` of `calculateLocalData`, built exactly like
`topCategories` but over the `location` field. -/
def topLocations (items : List Item) : List (String × Nat) :=
  ((countRecord (items.map Item.location)).insertionSort countGe).take 10

/-- The distinct values of a list in order of first occurrence. -/
def dedupFirst : List String → List String
  | [] => []
  | x :: xs => x :: dedupFirst (xs.filter (fun y => y != x))
termination_by l => l.length
decreasing_by
  exact Nat.lt_succ_of_le (List.length_filter_le _ _)

/-- The per-value frequency table of a list of keys, one entry per distinct
value, in first-encounter order. -/
def freqEntries (keys : List String) : List (String × Nat) :=
  (dedupFirst keys).map (fun c => (c, keys.count c))

/-! The client-side item store, `src/utils/storage.ts`.  `localStorage` holds
at most one value under the storage key; `JSON.parse ∘ JSON.stringify` is the
identity on the stored item records, so the stored serialized string is
embedded as the item list it encodes, and the storage slot as
`Option (List Item)` (absent key ↦ `none`). -/

/-- Modelled from the spec: the built-in mock dataset `mockItems`
(`src/utils/mockData.ts` is not part of the sources; the records follow the
spec's literal end-to-end scenario items). -/
def mockItems : List Item :=
  [ { id := "1", title := "Blue Backpack",
      description := "Navy blue backpack with two pockets",
      category := "Bags", location := "Library - 2nd Floor",
      date := "2024-01-01", status := "active", type := "lost",
      image := none, contactName := "Alice",
      contactInfo := "alice@campus.edu",
      createdAt := "2024-01-01T09:00:00.000Z" },
    { id := "2", title := "Backpack",
      description := "Found a backpack near the entrance",
      category := "Bags", location := "Cafeteria",
      date := "2024-01-02", status := "claimed", type := "found",
      image := none, contactName := "Bob",
      contactInfo := "bob@campus.edu",
      createdAt := "2024-01-02T10:00:00.000Z" } ]

/-- `getItems` of `storage.ts`: outside a browser return the mock data and
leave storage alone; with an empty storage slot, seed it with the mock data
and return them; otherwise return the parsed stored list.  The result pairs
the returned list with the storage slot after the call. -/
def getItems (hasWindow : Bool) (stored : Option (List Item)) :
    List Item × Option (List Item) :=
  if hasWindow then
    match stored with
    | none => (mockItems, some mockItems)
    | some l => (l, some l)
  else (mockItems, stored)

/-- The creation payload `Omit<Item, 'id' | 'createdAt'>`. -/
structure NewItemPayload where
  title : String
  description : String
  category : String
  location : String
  date : String
  status : String
  type : String
  image : Option String
  contactName : String
  contactInfo : String
deriving DecidableEq, Repr

/-- `addItem` of `storage.ts`: the new item gets `id = Date.now().toString()`
and `createdAt = new Date().toISOString()` (both read from the clock at call
time, passed here as `nowMs` and `nowIso`) and is unshifted onto the front of
the stored list. -/
def addItem (nowMs : Nat) (nowIso : String) (p : NewItemPayload)
    (items : List Item) : List Item :=
  { id := toString nowMs, title := p.title, description := p.description,
    category := p.category, location := p.location, date := p.date,
    status := p.status, type := p.type, image := p.image,
    contactName := p.contactName, contactInfo := p.contactInfo,
    createdAt := nowIso } :: items

/-- A `Partial<Item>` update payload: `some v` means the key is present with
value `v` (for the optional `image` key, present with string value `v`). -/
structure PartialItem where
  id : Option String := none
  title : Option String := none
  description : Option String := none
  category : Option String := none
  location : Option String := none
  date : Option String := none
  status : Option String := none
  type : Option String := none
  image : Option String := none
  contactName : Option String := none
  contactInfo : Option String := none
  createdAt : Option String := none
deriving DecidableEq, Repr

/-- The object spread `{ ...old, ...updates }`: every key present in the
update payload overwrites the old field, keys absent from the payload keep
the old value. -/
def mergeItem (old : Item) (u : PartialItem) : Item where
  id := u.id.getD old.id
  title := u.title.getD old.title
  description := u.description.getD old.description
  category := u.category.getD old.category
  location := u.location.getD old.location
  date := u.date.getD old.date
  status := u.status.getD old.status
  type := u.type.getD old.type
  image := match u.image with
    | some v => some v
    | none => old.image
  contactName := u.contactName.getD old.contactName
  contactInfo := u.contactInfo.getD old.contactInfo
  createdAt := u.createdAt.getD old.createdAt

/-- `updateItem` of `storage.ts`: `findIndex` locates the first item whose id
matches and that single slot is overwritten with the spread-merged record;
when no index matches (`index === -1`) nothing happens and nothing is
reported — the function returns `void` and throws nowhere. -/
def updateItem (id : String) (u : PartialItem) : List Item → List Item
  | [] => []
  | it :: rest =>
    if it.id == id then mergeItem it u :: rest
    else it :: updateItem id u rest

/-- `deleteItem` of `storage.ts`: keep every item whose id differs; a missing
id makes the filter the identity and the unchanged list is saved back, again
with no error reported. -/
def deleteItem (id : String) (items : List Item) : List Item :=
  items.filter (fun it => it.id != id)

/-! Report-form validation, `ReportItemForm.validateForm` in
`components/ReportItemForm.tsx` (lines 248-268). -/

/-- The form state relevant to `validateForm`. -/
structure ReportFormData where
  title : String
  description : String
  contactName : String
  contactInfo : String
deriving DecidableEq, Repr

/-- The regular expression test `contactInfo.match(/^\d{10}$/)`: exactly ten
ASCII digits. -/
def tenDigitPhone (s : String) : Bool :=
  s.length == 10 && s.data.all Char.isDigit

/-- `validateForm`: the keys pushed into `newErrors`, in source order; the
form is accepted when `Object.keys(newErrors).length === 0`. -/
def formErrors (f : ReportFormData) : List String :=
  (if jsTrim f.title == "" then [ "title" ] else []) ++
  (if jsTrim f.description == "" then [ "description" ] else []) ++
  (if jsTrim f.contactName == "" then [ "contactName" ] else []) ++
  (if jsTrim f.contactInfo == "" then [ "contactInfo" ]
   else if !jsIncludes f.contactInfo "@" && !tenDigitPhone f.contactInfo then
     [ "contactInfo" ]
   else [])

/-- `validateForm` returns `true` exactly when no error was recorded. -/
def validateForm (f : ReportFormData) : Bool :=
  (formErrors f).isEmpty

/-! Concrete records used to instantiate the theorems below. -/

/-- A stored item with category `Electronics`, used to probe the sentinel
handling of the category filter. -/
def cexItem : Item :=
  { id := "1", title := "Calculator", description := "TI-84 calculator",
    category := "Electronics", location := "Gym", date := "2024-01-05",
    status := "active", type := "lost", image := none,
    contactName := "Bob", contactInfo := "bob@campus.edu",
    createdAt := "2024-01-05T10:00:00.000Z" }

/-- A filter state whose category filter carries the lowercase sentinel
spelling `"all"`; every other filter is neutral for the code. -/
def cexFilters : FilterOptions :=
  { search := "", category := "all", location := "All", type := "all",
    status := "all", dateFrom := "", dateTo := "" }

/-- First demo item, id `"1"`. -/
def dItemA : Item :=
  { id := "1", title := "Umbrella", description := "Black umbrella",
    category := "Accessories", location := "Cafeteria",
    date := "2024-01-01", status := "active", type := "found",
    image := none, contactName := "Cara",
    contactInfo := "cara@campus.edu",
    createdAt := "2024-01-01T08:00:00.000Z" }

/-- Second demo item, id `"2"`. -/
def dItemB : Item :=
  { id := "2", title := "Notebook", description := "Red notebook",
    category := "Books", location := "Library - 2nd Floor",
    date := "2024-01-02", status := "active", type := "lost",
    image := none, contactName := "Dan",
    contactInfo := "dan@campus.edu",
    createdAt := "2024-01-02T08:00:00.000Z" }

/-- Third demo item, id `"3"`. -/
def dItemC : Item :=
  { id := "3", title := "Scarf", description := "Wool scarf",
    category := "Clothing", location := "Gym",
    date := "2024-01-03", status := "pending", type := "lost",
    image := none, contactName := "Eve",
    contactInfo := "eve@campus.edu",
    createdAt := "2024-01-03T08:00:00.000Z" }

/-- A small store with three distinct ids. -/
def demoStore : List Item :=
  [ dItemA, dItemB, dItemC ]

/-- An update payload that only sets the status, the shape the application
itself sends (`apiService.updateItem(id, { status })`). -/
def uStatus : PartialItem :=
  { status := some "claimed" }

/-- An update payload that carries `id` and `createdAt` keys. -/
def uOverwrite : PartialItem :=
  { id := some "777", createdAt := some "1999-01-01T00:00:00.000Z" }

/-- A creation payload for a lost backpack. -/
def payloadLost : NewItemPayload :=
  { title := "Blue Backpack", description := "Navy blue, two pockets",
    category := "Bags", location := "Library - 2nd Floor",
    date := "2024-01-01", status := "active", type := "lost",
    image := none, contactName := "Alice",
    contactInfo := "alice@campus.edu" }

/-- A creation payload for a found backpack. -/
def payloadFound : NewItemPayload :=
  { title := "Backpack", description := "Found near the entrance",
    category := "Bags", location := "Cafeteria",
    date := "2024-01-01", status := "active", type := "found",
    image := none, contactName := "Bob",
    contactInfo := "bob@campus.edu" }

/-! Theorems. -/

/-- C2: for every query string of length less than two (including the empty
string) and every backend answer (hence every item set), the suggestion
operation returns the empty sequence. -/
theorem suggestions_short_query_empty
    (query : String) (backendSuggest : String → List String)
    (h : query.length < 2) :
    getSearchSuggestions query backendSuggest = [] := by
  simp [getSearchSuggestions, h]

/-- Witness for C2 at the one-character query `"a"` and a non-trivial
backend over a non-empty item set. -/
theorem suggestions_short_query_empty_witness :
    getSearchSuggestions "a" (fun _ => [ "Blue Backpack" ]) = [] :=
  suggestions_short_query_empty "a" (fun _ => [ "Blue Backpack" ]) (by decide)

/-- C4: when the item list is empty (`totalItems = 0`) the dashboard fallback
yields `claimRate = 0`; the division is evaluated only under the
`totalItems > 0` guard, so the division-by-zero branch is unreachable. -/
theorem claimRate_zero_on_empty (items : List Item)
    (h : totalItems items = 0) : claimRate items = 0 := by
  simp [claimRate, h]

/-- Witness for C4 at the empty item list. -/
theorem claimRate_zero_on_empty_witness :
    totalItems [] = 0 ∧ claimRate [] = 0 :=
  ⟨rfl, claimRate_zero_on_empty [] rfl⟩

/-- C3: whenever every item's `type` is `lost` or `found` and every item's
`status` is `active`, `claimed` or `pending`, the dashboard fallback counts
satisfy `lostItems + foundItems = totalItems` and
`activeItems + claimedItems + pendingItems = totalItems`. -/
theorem dashboard_totals_consistent (items : List Item)
    (htype : ∀ it ∈ items, it.type = "lost" ∨ it.type = "found")
    (hstatus : ∀ it ∈ items,
      it.status = "active" ∨ it.status = "claimed" ∨ it.status = "pending") :
    lostItems items + foundItems items = totalItems items ∧
      activeItems items + claimedItems items + pendingItems items
        = totalItems items := by
  induction items with
  | nil => exact ⟨rfl, rfl⟩
  | cons it rest ih =>
    have hir := ih (fun j hj => htype j (List.mem_cons_of_mem it hj))
      (fun j hj => hstatus j (List.mem_cons_of_mem it hj))
    have h1 := hir.1
    have h2 := hir.2
    simp only [lostItems, foundItems, activeItems, claimedItems, pendingItems,
      totalItems] at h1 h2 ⊢
    constructor
    · rcases htype it (List.mem_cons_self it rest) with h | h <;>
        simp [List.filter_cons, h] <;> omega
    · rcases hstatus it (List.mem_cons_self it rest) with h | h | h <;>
        simp [List.filter_cons, h] <;> omega

/-- Witness for C3 at a concrete three-item store with in-range `type` and
`status` fields. -/
theorem dashboard_totals_consistent_witness :
    lostItems demoStore + foundItems demoStore = totalItems demoStore ∧
      activeItems demoStore + claimedItems demoStore + pendingItems demoStore
        = totalItems demoStore :=
  dashboard_totals_consistent demoStore (by decide) (by decide)

/-- When no stored item has the requested id, `updateItem` walks the whole
list without firing and returns it unchanged. -/
theorem updateItem_of_not_found (id : String) (u : PartialItem) :
    ∀ items : List Item, (∀ it ∈ items, it.id ≠ id) →
      updateItem id u items = items := by
  intro items
  induction items with
  | nil => intro _; rfl
  | cons it rest ih =>
    intro h
    have hne : (it.id == id) = false :=
      beq_eq_false_iff_ne.mpr (h it (List.mem_cons_self it rest))
    simp [updateItem, hne, ih (fun j hj => h j (List.mem_cons_of_mem it hj))]

/-- C7 amended: on an id absent from the store, `updateItem` is a silent
no-op (the `index === -1` branch performs no write) and `deleteItem`
silently saves back contents equal to the original list; neither operation
reports any error — both return `void` and contain no `throw`. -/
theorem update_delete_missing_id_silent (items : List Item) (id : String)
    (u : PartialItem) (h : ∀ it ∈ items, it.id ≠ id) :
    updateItem id u items = items ∧ deleteItem id items = items := by
  refine ⟨updateItem_of_not_found id u items h, ?_⟩
  exact List.filter_eq_self.mpr fun it hit => by simp [h it hit]

/-- Witness for C7 at a concrete store and the absent id `"999"`. -/
theorem update_delete_missing_id_silent_witness :
    updateItem "999" uStatus demoStore = demoStore ∧
      deleteItem "999" demoStore = demoStore :=
  update_delete_missing_id_silent demoStore "999" uStatus (by decide)

/-- C7 counterexample to the claim as stated: calling `updateItem` and
`deleteItem` with the absent id `"42"` on a concrete store terminates with
the store contents unchanged and yields no error value of any kind — the
missing-id call silently succeeds instead of reporting a not-found error. -/
theorem update_delete_missing_id_cex :
    updateItem "42" uStatus demoStore = demoStore ∧
      deleteItem "42" demoStore = demoStore := by
  exact ⟨by decide, by decide⟩

/-- C8: two creations in the same millisecond (`Date.now() = 1000`) starting
from the empty store both receive the id `Date.now().toString() = "1000"`:
the stored id column is `["1000", "1000"]`, which is not pairwise distinct —
the code violates the claimed uniqueness invariant. -/
theorem addItem_same_millisecond_duplicate_id :
    List.map Item.id
        (addItem 1000 "2024-01-01T00:00:01.000Z" payloadFound
          (addItem 1000 "2024-01-01T00:00:00.500Z" payloadLost []))
      = [ "1000", "1000" ] := by
  decide

/-- C9 amended: `updateItem` rewrites exactly the first store slot whose id
matches, leaves every other item unchanged in place (and the whole store
unchanged when no id matches), and the merged item keeps its `id` and
`createdAt` whenever the payload does not itself carry those keys; a payload
carrying them overwrites them, since the source spreads the payload over the
stored record. -/
theorem updateItem_frame (id : String) (u : PartialItem) :
    (∀ items : List Item, (∀ it ∈ items, it.id ≠ id) →
        updateItem id u items = items) ∧
      (∀ (pre : List Item) (it : Item) (post : List Item),
        (∀ j ∈ pre, j.id ≠ id) → it.id = id →
          updateItem id u (pre ++ it :: post) = pre ++ mergeItem it u :: post) ∧
      (∀ old : Item, u.id = none → (mergeItem old u).id = old.id) ∧
      (∀ old : Item, u.createdAt = none →
        (mergeItem old u).createdAt = old.createdAt) := by
  refine ⟨updateItem_of_not_found id u, ?_, ?_, ?_⟩
  · intro pre it post hpre hit
    induction pre with
    | nil =>
      have : (it.id == id) = true := beq_iff_eq.mpr hit
      simp [updateItem, this]
    | cons j rest ih =>
      have hne : (j.id == id) = false :=
        beq_eq_false_iff_ne.mpr (hpre j (List.mem_cons_self j rest))
      simp [updateItem, hne,
        ih (fun k hk => hpre k (List.mem_cons_of_mem j hk))]
  · intro old h
    simp [mergeItem, h]
  · intro old h
    simp [mergeItem, h]

/-- Witness for C9 at a concrete store: updating id `"2"` with a pure status
payload rewrites exactly the middle slot and keeps its id and createdAt. -/
theorem updateItem_frame_witness :
    updateItem "2" uStatus ([ dItemA ] ++ dItemB :: [ dItemC ])
        = [ dItemA ] ++ mergeItem dItemB uStatus :: [ dItemC ] ∧
      (mergeItem dItemB uStatus).id = dItemB.id ∧
      (mergeItem dItemB uStatus).createdAt = dItemB.createdAt :=
  ⟨(updateItem_frame "2" uStatus).2.1 [ dItemA ] dItemB [ dItemC ]
      (by decide) rfl,
    (updateItem_frame "2" uStatus).2.2.1 dItemB rfl,
    (updateItem_frame "2" uStatus).2.2.2 dItemB rfl⟩

/-- C9 counterexample to the claim as stated: an update payload that carries
`id` and `createdAt` keys overwrites both supposedly immutable fields of
the matched item. -/
theorem updateItem_overwrite_cex :
    (updateItem "1" uOverwrite [ cexItem ]).map Item.id = [ "777" ] ∧
      (updateItem "1" uOverwrite [ cexItem ]).map Item.createdAt
        = [ "1999-01-01T00:00:00.000Z" ] := by
  exact ⟨by decide, by decide⟩

/-- C10: in a browser with no list ever saved (absent storage key), the
first `getItems` call seeds the storage slot with the built-in mock dataset
and returns that dataset, which has two entries (in particular it is not the
empty list, and no error path exists in the function); moreover two
consecutive `getItems` calls with no intervening write return the same
list, whatever the starting storage state. -/
theorem getItems_seeds_mock_and_consistent :
    getItems true none = (mockItems, some mockItems) ∧
      mockItems.length = 2 ∧
      ∀ stored : Option (List Item),
        (getItems true (getItems true stored).2).1 = (getItems true stored).1 := by
  refine ⟨rfl, rfl, ?_⟩
  intro stored
  cases stored <;> rfl

/-- C1 amended: the browse search returns exactly the items that pass the
source's filter predicate (free-text match on any of title, description,
location or contactName, equality filters whose neutral value is exactly
`"All"` for category and location and exactly `"all"` for type and status,
and the inclusive date range), as a permutation of the filtered list that is
sorted newest first by `createdAt`. -/
theorem search_filters_and_sorts (f : FilterOptions) (items : List Item) :
    (∀ it, it ∈ sortedItems f items ↔ it ∈ items ∧ matchesFilters f it = true) ∧
      (sortedItems f items).Sorted newerFirst ∧
      (sortedItems f items).Perm (filteredItems f items) := by
  refine ⟨?_, List.sorted_insertionSort _ _, List.perm_insertionSort _ _⟩
  intro it
  unfold sortedItems
  rw [(List.perm_insertionSort newerFirst (filteredItems f items)).mem_iff]
  simp [filteredItems, List.mem_filter]

/-- C1 counterexample to the claim as stated: with the category filter set
to the lowercase sentinel spelling `"all"`, the claim's reading (sentinel
`"All"`/`"all"` or empty imposes no constraint) accepts the stored item, but
the code compares `filters.category === 'All'` case-sensitively, treats
`"all"` as an ordinary category value, and returns the empty list. -/
theorem search_sentinel_cex :
    claimMatchesFilters cexFilters cexItem = true ∧
      sortedItems cexFilters [ cexItem ] = [] := by
  exact ⟨by decide, by decide⟩

/-- A string one of whose characters is not whitespace does not trim to the
empty string. -/
theorem jsTrim_ne_empty {s : String} {c : Char} (hc : c ∈ s.data)
    (hw : jsWhitespace c = false) : jsTrim s ≠ "" := by
  intro h
  have hl : ((s.data.dropWhile jsWhitespace).reverse.dropWhile
      jsWhitespace).reverse = [] := congrArg String.data h
  rw [List.reverse_eq_nil_iff, List.dropWhile_eq_nil_iff] at hl
  rw [← List.takeWhile_append_dropWhile jsWhitespace s.data] at hc
  rcases List.mem_append.mp hc with h1 | h1
  · rw [List.mem_takeWhile_imp h1] at hw
    exact Bool.true_eq_false.mp hw
  · have := hl c (List.mem_reverse.mpr h1)
    rw [this] at hw
    exact Bool.true_eq_false.mp hw

/-- `contactInfo.includes('@')` succeeding means an `'@'` character occurs
in the string. -/
theorem at_mem_of_jsIncludes {s : String} (h : jsIncludes s "@" = true) :
    '@' ∈ s.data := by
  have hinf : ("@" : String).data <:+: s.data := of_decide_eq_true h
  exact hinf.subset (by decide)

/-- Digits are not trimmed: a decimal digit is not `trim` whitespace. -/
theorem digit_not_jsWhitespace {c : Char} (hd : c.isDigit = true) :
    jsWhitespace c = false := by
  cases hws : jsWhitespace c
  · rfl
  · exfalso
    simp only [jsWhitespace, Bool.or_eq_true, beq_iff_eq] at hws
    rcases hws with ((h | h) | h) | h <;> rw [h] at hd <;>
      exact absurd hd (by decide)

/-- A ten-digit phone string contains a non-whitespace character. -/
theorem tenDigit_has_sturdy_char {s : String} (h : tenDigitPhone s = true) :
    ∃ c ∈ s.data, jsWhitespace c = false := by
  obtain ⟨h1, h2⟩ := (Bool.and_eq_true _ _).mp h
  have hlen : s.data.length = 10 := beq_iff_eq.mp h1
  have hne : s.data ≠ [] := by
    intro hnil
    rw [hnil] at hlen
    exact absurd hlen (by decide)
  obtain ⟨c, cs, hcons⟩ := List.exists_cons_of_ne_nil hne
  have hc : c ∈ s.data := by rw [hcons]; exact List.mem_cons_self c cs
  have hd : c.isDigit = true := List.all_eq_true.mp h2 c hc
  exact ⟨c, hc, digit_not_jsWhitespace hd⟩

/-- Helper: a string whose characters are all whitespace is rejected by the
required-field checks; conversely the empty string trims to itself. -/
theorem jsTrim_empty : jsTrim "" = "" := rfl

/-- C6: the report form is accepted exactly when title, description and
contactName are non-empty after trimming and contactInfo is non-empty and
either contains an `'@'` (the email-shaped test the source applies) or is an
exactly-ten-digit phone number. -/
theorem validateForm_accepts_iff (f : ReportFormData) :
    validateForm f = true ↔
      (jsTrim f.title ≠ "" ∧ jsTrim f.description ≠ "" ∧
        jsTrim f.contactName ≠ "" ∧ f.contactInfo ≠ "" ∧
        (jsIncludes f.contactInfo "@" = true ∨
          tenDigitPhone f.contactInfo = true)) := by
  have hmain : validateForm f = true ↔
      (jsTrim f.title ≠ "" ∧ jsTrim f.description ≠ "" ∧
        jsTrim f.contactName ≠ "" ∧ jsTrim f.contactInfo ≠ "" ∧
        (jsIncludes f.contactInfo "@" = true ∨
          tenDigitPhone f.contactInfo = true)) := by
    unfold validateForm formErrors
    by_cases h1 : jsTrim f.title = "" <;>
    by_cases h2 : jsTrim f.description = "" <;>
    by_cases h3 : jsTrim f.contactName = "" <;>
    by_cases h4 : jsTrim f.contactInfo = "" <;>
    by_cases h5 : jsIncludes f.contactInfo "@" = true <;>
    by_cases h6 : tenDigitPhone f.contactInfo = true <;>
      simp [h1, h2, h3, h4, h5, h6]
  rw [hmain]
  constructor
  · rintro ⟨a, b, c, d, e⟩
    refine ⟨a, b, c, ?_, e⟩
    intro h0
    exact d (by rw [h0]; rfl)
  · rintro ⟨a, b, c, _, e⟩
    refine ⟨a, b, c, ?_, e⟩
    rcases e with he | hp
    · exact jsTrim_ne_empty (at_mem_of_jsIncludes he) (by decide)
    · obtain ⟨ch, hch, hw⟩ := tenDigit_has_sturdy_char hp
      exact jsTrim_ne_empty hch hw

/-- Unfolding equation for `dedupFirst` on `[]`. -/
theorem dedupFirst_nil : dedupFirst [] = [] := by
  rw [dedupFirst]

/-- Unfolding equation for `dedupFirst` on a cons cell. -/
theorem dedupFirst_cons (x : String) (xs : List String) :
    dedupFirst (x :: xs) = x :: dedupFirst (xs.filter (fun y => y != x)) := by
  rw [dedupFirst]

/-- Every value kept by `dedupFirst` occurs in the original list. -/
theorem dedupFirst_subset {l : List String} {a : String}
    (ha : a ∈ dedupFirst l) : a ∈ l := by
  have key : ∀ (n : Nat) (l : List String), l.length ≤ n →
      ∀ a ∈ dedupFirst l, a ∈ l := by
    intro n
    induction n with
    | zero =>
      intro l hl a ha
      have hnil : l = [] := List.eq_nil_of_length_eq_zero (Nat.le_zero.mp hl)
      rw [hnil, dedupFirst_nil] at ha
      exact absurd ha (List.not_mem_nil a)
    | succ n ih =>
      intro l hl a ha
      cases l with
      | nil =>
        rw [dedupFirst_nil] at ha
        exact absurd ha (List.not_mem_nil a)
      | cons x xs =>
        rw [dedupFirst_cons] at ha
        rcases List.mem_cons.mp ha with rfl | ha'
        · exact List.mem_cons_self _ _
        · have hxs : xs.length ≤ n := by
            simp only [List.length_cons] at hl
            omega
          have hlen : (xs.filter (fun y => y != x)).length ≤ n :=
            le_trans (List.length_filter_le _ _) hxs
          exact List.mem_cons_of_mem _
            (List.mem_of_mem_filter (ih _ hlen a ha'))
  exact key l.length l le_rfl a ha

/-- Incrementing a key absent from the counter appends it at the end. -/
theorem bumpCount_not_mem {x : String} :
    ∀ {m : List (String × Nat)}, x ∉ m.map Prod.fst →
      bumpCount m x = m ++ [ (x, 1) ] := by
  intro m
  induction m with
  | nil => intro _; rfl
  | cons p rest ih =>
    intro h
    obtain ⟨k, v⟩ := p
    simp only [List.map_cons, List.mem_cons, not_or] at h
    have hk : (k == x) = false := beq_eq_false_iff_ne.mpr (fun e => h.1 e.symm)
    simp [bumpCount, hk, ih h.2]

/-- Bumping a key that no entry carries leaves the counter unchanged under
the increment map. -/
theorem map_inc_not_mem {x : String} {m : List (String × Nat)}
    (h : x ∉ m.map Prod.fst) :
    m.map (fun p => if p.1 == x then (p.1, p.2 + 1) else p) = m := by
  conv_rhs => rw [← List.map_id m]
  apply List.map_congr_left
  intro p hp
  have hpx : p.1 ≠ x := fun e => h (e ▸ List.mem_map_of_mem Prod.fst hp)
  simp [beq_eq_false_iff_ne.mpr hpx]

/-- Incrementing a key present in a duplicate-free counter increments
exactly that entry in place. -/
theorem bumpCount_mem {x : String} :
    ∀ {m : List (String × Nat)}, (m.map Prod.fst).Nodup →
      x ∈ m.map Prod.fst →
      bumpCount m x
        = m.map (fun p => if p.1 == x then (p.1, p.2 + 1) else p) := by
  intro m
  induction m with
  | nil =>
    intro _ hx
    exact absurd hx (List.not_mem_nil x)
  | cons p rest ih =>
    intro hnd hx
    obtain ⟨k, v⟩ := p
    simp only [List.map_cons, List.nodup_cons] at hnd
    by_cases hk : k = x
    · subst hk
      rw [List.map_cons, map_inc_not_mem hnd.1]
      simp [bumpCount]
    · have hkb : (k == x) = false := beq_eq_false_iff_ne.mpr hk
      have hx' : x ∈ rest.map Prod.fst := by
        rcases List.mem_cons.mp hx with h | h
        · exact absurd h.symm hk
        · exact h
      simp [bumpCount, hkb, hk, ih hnd.2 hx']

/-- The increment map does not change the key column. -/
theorem keys_map_inc (x : String) (m : List (String × Nat)) :
    (m.map (fun p => if p.1 == x then (p.1, p.2 + 1) else p)).map Prod.fst
      = m.map Prod.fst := by
  rw [List.map_map]
  apply List.map_congr_left
  intro p _
  by_cases h : p.1 == x <;> simp [Function.comp, h]

/-- Running the `forEach` counter loop over `keys` starting from a
duplicate-free counter `m` yields: every existing entry bumped by its number
of occurrences in `keys`, followed by the keys not yet present, in
first-encounter order, each with its occurrence count. -/
theorem foldl_bumpCount_eq :
    ∀ (keys : List String) (m : List (String × Nat)),
      (m.map Prod.fst).Nodup →
      keys.foldl bumpCount m
        = m.map (fun p => (p.1, p.2 + keys.count p.1))
          ++ (dedupFirst (keys.filter
                (fun c => decide (c ∉ m.map Prod.fst)))).map
              (fun c => (c, keys.count c)) := by
  intro keys
  induction keys with
  | nil =>
    intro m _
    simp [dedupFirst_nil]
  | cons x xs ih =>
    intro m hm
    rw [List.foldl_cons]
    by_cases hx : x ∈ m.map Prod.fst
    · rw [bumpCount_mem hm hx, ih _ (by rw [keys_map_inc]; exact hm)]
      simp only [keys_map_inc]
      have e1 : (m.map (fun p => if p.1 == x then (p.1, p.2 + 1) else p)).map
            (fun p => (p.1, p.2 + xs.count p.1))
          = m.map (fun p => (p.1, p.2 + (x :: xs).count p.1)) := by
        rw [List.map_map]
        apply List.map_congr_left
        intro p _
        obtain ⟨q, n⟩ := p
        by_cases hqx : q = x
        · subst hqx
          simp only [Function.comp_apply, beq_self_eq_true, if_true,
            List.count_cons_self, Prod.mk.injEq, eq_self_iff_true, true_and]
          omega
        · have hb : (q == x) = false := beq_eq_false_iff_ne.mpr hqx
          simp [Function.comp, hb, List.count_cons_of_ne hqx]
      have e2 : (x :: xs).filter (fun c => decide (c ∉ m.map Prod.fst))
          = xs.filter (fun c => decide (c ∉ m.map Prod.fst)) := by
        rw [List.filter_cons]
        simp [hx]
      have e3 : (dedupFirst (xs.filter
              (fun c => decide (c ∉ m.map Prod.fst)))).map
            (fun c => (c, xs.count c))
          = (dedupFirst (xs.filter
              (fun c => decide (c ∉ m.map Prod.fst)))).map
            (fun c => (c, (x :: xs).count c)) := by
        apply List.map_congr_left
        intro c hc
        have hc2 : c ∉ m.map Prod.fst := by
          have := (List.mem_filter.mp (dedupFirst_subset hc)).2
          simpa using this
        have hcx : c ≠ x := fun e => hc2 (e ▸ hx)
        rw [List.count_cons_of_ne hcx]
      rw [e1, e2, e3]
    · have hnd' : ((m ++ [ (x, 1) ]).map Prod.fst).Nodup := by
        rw [List.map_append, List.nodup_append]
        refine ⟨hm, by simp, ?_⟩
        intro a ha
        simp only [List.map_cons, List.map_nil, List.mem_singleton]
        intro e
        exact hx (e ▸ ha)
      rw [bumpCount_not_mem hx, ih _ hnd']
      have hA : (m ++ [ (x, 1) ]).map
            (fun p : String × Nat => (p.1, p.2 + xs.count p.1))
          = m.map (fun p : String × Nat => (p.1, p.2 + (x :: xs).count p.1))
            ++ [ (x, xs.count x + 1) ] := by
        rw [List.map_append]
        congr 1
        · apply List.map_congr_left
          intro p hp
          have hpx : p.1 ≠ x :=
            fun e => hx (e ▸ List.mem_map_of_mem Prod.fst hp)
          rw [List.count_cons_of_ne hpx]
        · simp [Nat.add_comm]
      have hB : (x :: xs).filter (fun c => decide (c ∉ m.map Prod.fst))
          = x :: xs.filter (fun c => decide (c ∉ m.map Prod.fst)) := by
        rw [List.filter_cons]
        simp [hx]
      have hC : (xs.filter (fun c => decide (c ∉ m.map Prod.fst))).filter
            (fun y => y != x)
          = xs.filter (fun c => decide (c ∉ (m ++ [ (x, 1) ]).map Prod.fst)) := by
        rw [List.filter_filter]
        apply List.filter_congr
        intro c _
        rw [Bool.eq_iff_iff]
        simp only [Bool.and_eq_true, bne_iff_ne, decide_eq_true_eq,
          List.map_append, List.map_cons, List.map_nil, List.mem_append,
          List.mem_singleton, not_or, ne_eq]
        tauto
      have hE : (dedupFirst (xs.filter
              (fun c => decide (c ∉ (m ++ [ (x, 1) ]).map Prod.fst)))).map
            (fun c => (c, xs.count c))
          = (dedupFirst (xs.filter
              (fun c => decide (c ∉ (m ++ [ (x, 1) ]).map Prod.fst)))).map
            (fun c => (c, (x :: xs).count c)) := by
        apply List.map_congr_left
        intro c hc
        have hc2 : c ∉ (m ++ [ (x, 1) ]).map Prod.fst := by
          have := (List.mem_filter.mp (dedupFirst_subset hc)).2
          simpa using this
        have hcx : c ≠ x := by
          intro e
          apply hc2
          rw [List.map_append, e]
          simp
        rw [List.count_cons_of_ne hcx]
      rw [hA, hE, hB, dedupFirst_cons, hC, List.map_cons,
        List.count_cons_self]
      simp [List.append_assoc]

/-- `Object.entries` of the category/location counter is exactly the
first-encounter frequency table. -/
theorem countRecord_eq_freq (keys : List String) :
    countRecord keys = freqEntries keys := by
  unfold countRecord freqEntries
  rw [foldl_bumpCount_eq keys [] (by simp)]
  have hfil : keys.filter
      (fun c => decide (c ∉ (([] : List (String × Nat)).map Prod.fst)))
        = keys :=
    List.filter_eq_self.mpr (fun a _ => by simp)
  rw [hfil]
  simp

/-- Stability of the descending-count sort: for each count value, the
entries carrying that count appear in the sorted output exactly in their
input order.  Together with sortedness this pins down the tie-breaking of
`topCategories`/`topLocations` to first-encounter order. -/
theorem insertionSort_filter_count (l : List (String × Nat)) (k : Nat) :
    (l.insertionSort countGe).filter (fun p => p.2 == k)
      = l.filter (fun p => p.2 == k) := by
  induction l with
  | nil => rfl
  | cons a l ih =>
    have hstep : (a :: l).insertionSort countGe
        = List.orderedInsert countGe a (l.insertionSort countGe) := rfl
    rw [hstep, List.orderedInsert_eq_take_drop, List.filter_append]
    by_cases hk : a.2 = k
    · have ha : (a.2 == k) = true := beq_iff_eq.mpr hk
      have htake : (List.takeWhile (fun b => decide ¬countGe a b)
            (l.insertionSort countGe)).filter (fun p => p.2 == k) = [] := by
        rw [List.filter_eq_nil_iff]
        intro q hq
        have hq2 := List.mem_takeWhile_imp hq
        simp only [decide_eq_true_eq] at hq2
        have hlt : a.2 < q.2 := by
          unfold countGe at hq2
          omega
        simp only [beq_iff_eq]
        omega
      have hsplit : (l.insertionSort countGe).filter (fun p => p.2 == k)
          = (List.dropWhile (fun b => decide ¬countGe a b)
              (l.insertionSort countGe)).filter (fun p => p.2 == k) := by
        conv_lhs => rw [← List.takeWhile_append_dropWhile
          (fun b => decide ¬countGe a b) (l.insertionSort countGe)]
        rw [List.filter_append, htake, List.nil_append]
      have hdrop : (List.dropWhile (fun b => decide ¬countGe a b)
            (l.insertionSort countGe)).filter (fun p => p.2 == k)
          = l.filter (fun p => p.2 == k) := hsplit.symm.trans ih
      rw [htake, List.nil_append, List.filter_cons, List.filter_cons, ha,
        if_pos rfl, if_pos rfl, hdrop]
    · have ha : (a.2 == k) = false := beq_eq_false_iff_ne.mpr hk
      have hfalse : ¬ ((a.2 == k) = true) := by
        rw [beq_iff_eq]
        exact hk
      rw [List.filter_cons, List.filter_cons, if_neg hfalse, if_neg hfalse,
        ← List.filter_append, List.takeWhile_append_dropWhile]
      exact ih

/-- C5: `topCategories` (and likewise `topLocations`) is the first ten of
the stably sorted frequency table: it equals the first-encounter frequency
table sorted by descending count and truncated to ten entries; the output
is sorted by descending count; its length is at most ten; and for every
count value the tied entries keep their first-encounter order (stability of
the sort over the insertion-ordered counter). -/
theorem topCategories_topLocations_spec (items : List Item) :
    topCategories items
        = ((freqEntries (items.map Item.category)).insertionSort
            countGe).take 10 ∧
      (topCategories items).Sorted countGe ∧
      (topCategories items).length ≤ 10 ∧
      (∀ k : Nat,
        ((countRecord (items.map Item.category)).insertionSort
            countGe).filter (fun p => p.2 == k)
          = (countRecord (items.map Item.category)).filter
              (fun p => p.2 == k)) ∧
      topLocations items
        = ((freqEntries (items.map Item.location)).insertionSort
            countGe).take 10 ∧
      (topLocations items).Sorted countGe ∧
      (topLocations items).length ≤ 10 ∧
      (∀ k : Nat,
        ((countRecord (items.map Item.location)).insertionSort
            countGe).filter (fun p => p.2 == k)
          = (countRecord (items.map Item.location)).filter
              (fun p => p.2 == k)) := by
  refine ⟨?_, ?_, ?_, fun k => insertionSort_filter_count _ k,
    ?_, ?_, ?_, fun k => insertionSort_filter_count _ k⟩
  · unfold topCategories
    rw [countRecord_eq_freq]
  · exact List.Pairwise.sublist (List.take_sublist _ _)
      (List.sorted_insertionSort _ _)
  · exact List.length_take_le _ _
  · unfold topLocations
    rw [countRecord_eq_freq]
  · exact List.Pairwise.sublist (List.take_sublist _ _)
      (List.sorted_insertionSort _ _)
  · exact List.length_take_le _ _

end LostFound
